import Mathlib

/-!
# Verification of the training-loop state machine of `music_mood_clf`

Shallow embedding of `src/train.py` (class `Trainer` and the pieces of `main`
it depends on) and of `src/save_model.py` (`save_model`).

The embedding follows the source:

* The training loop (`Trainer.run` / `_train_epoch` / `_train_step` /
  `_check_log_interval` / `_check_save_interval` / `_check_eval_interval` /
  `_check_train_finish`, lines 59-107 and 156-177) is modelled as a pure
  state machine on `LoopState` producing a trace of `TrainEvent`s.  The
  side-effecting interval actions (tensorboard logging, checkpoint save,
  evaluation pass) are recorded as trace events at the loop level; the
  evaluation pass and the checkpoint store are modelled concretely below.
  The infinite `while True` of `run` is observed through finite fuel: a
  `List Nat` giving the number of batches the train data loader yields in
  each successive epoch (in the program this count is fixed per run; the
  model allows any sequence, which is more general).
* The evaluation pass (`_eval_epoch` / `_eval_step`, lines 108-154) is
  modelled on `EvTrainer`.  Scalar tensor values are abstracted as `ℚ`; the
  model forward, the selected loss function and `F.sigmoid` are external
  collaborators and appear as function-valued fields.  The registry passed
  as `criterion` is the plain dict built in `main` lines 304-307, kept as an
  association list.
* The checkpoint store (`save_checkpoint` / `load_checkpoint`, lines
  183-207) and the export routine (`save_model.py` lines 13-33) are
  modelled with parameter dictionaries carrying a shape signature, so that
  `load_state_dict` can fail on architecture mismatch as in the source.
-/

namespace MoodClf

/-! ## Training loop: state, configuration, events -/

/-- The sub-config handed to `Trainer` (`config['trainer']`), restricted to the
keys the loop state machine reads. -/
structure TrainerCfg where
  log_interval_steps : Nat
  save_interval_steps : Nat
  eval_interval_steps : Nat
  train_max_steps : Nat
  distributed : Bool
deriving DecidableEq, Repr

/-- The loop bookkeeping mutated by `Trainer`: `self.steps`, `self.epochs`,
`self.finish_train`. -/
structure LoopState where
  steps : Nat
  epochs : Nat
  finish_train : Bool
deriving DecidableEq, Repr

/-- Observable actions of one run of the loop, each tagged with the value of
`self.steps` (and for epoch events `self.epochs`) at the moment it happens.
`trainStep s` records a processed batch whose increment brought the counter to
`s`; `logAction` / `saveAction` / `evalAction` record the three interval
actions; `epochEnd e s` records the epoch-boundary action (epoch counter
increment plus log line); `samplerSetEpoch e` records the distributed-sampler
reseed call. -/
inductive TrainEvent where
  | trainStep (s : Nat)
  | logAction (s : Nat)
  | saveAction (s : Nat)
  | evalAction (s : Nat)
  | epochEnd (e s : Nat)
  | samplerSetEpoch (e : Nat)
deriving DecidableEq, Repr

/-- `Trainer._check_train_finish` (lines 175-177): set `finish_train` when
`self.steps >= self.config['train_max_steps']`. -/
def check_train_finish (cfg : TrainerCfg) (st : LoopState) : LoopState :=
  if cfg.train_max_steps ≤ st.steps then { st with finish_train := true } else st

/-- `Trainer._train_step` (lines 90-106): process one batch (the numeric work
is external), increment `self.steps` by one, then `_check_train_finish`.  The
emitted event carries the post-increment counter, the value the subsequent
interval checks will test. -/
def train_step (cfg : TrainerCfg) (st : LoopState) : LoopState × List TrainEvent :=
  let st1 : LoopState := { st with steps := st.steps + 1 }
  (check_train_finish cfg st1, [TrainEvent.trainStep st1.steps])

/-- `Trainer._check_log_interval` (lines 156-164): fire iff
`self.steps % log_interval_steps == 0`. -/
def check_log_interval (cfg : TrainerCfg) (st : LoopState) : List TrainEvent :=
  if st.steps % cfg.log_interval_steps = 0 then [TrainEvent.logAction st.steps] else []

/-- `Trainer._check_save_interval` (lines 166-169): fire iff
`self.steps % save_interval_steps == 0`. -/
def check_save_interval (cfg : TrainerCfg) (st : LoopState) : List TrainEvent :=
  if st.steps % cfg.save_interval_steps = 0 then [TrainEvent.saveAction st.steps] else []

/-- `Trainer._check_eval_interval` (lines 171-173): fire iff
`self.steps % eval_interval_steps == 0`. -/
def check_eval_interval (cfg : TrainerCfg) (st : LoopState) : List TrainEvent :=
  if st.steps % cfg.eval_interval_steps = 0 then [TrainEvent.evalAction st.steps] else []

/-- One iteration of the `for` loop body in `Trainer._train_epoch` (lines
72-79): `_train_step`, then the three interval checks in source order
log, save, eval. -/
def processBatch (cfg : TrainerCfg) (st : LoopState) : LoopState × List TrainEvent :=
  let r := train_step cfg st
  (r.1, r.2 ++ check_log_interval cfg r.1 ++ check_save_interval cfg r.1
             ++ check_eval_interval cfg r.1)

/-- The epoch-boundary tail of `Trainer._train_epoch` (lines 84-88), reached
when the data loader is exhausted without `finish_train`: increment
`self.epochs`, log, and in distributed mode call `sampler.set_epoch` with the
new epoch. -/
def epochBoundary (cfg : TrainerCfg) (st : LoopState) : LoopState × List TrainEvent :=
  let st1 : LoopState := { st with epochs := st.epochs + 1 }
  (st1, TrainEvent.epochEnd st1.epochs st1.steps ::
        (if cfg.distributed then [TrainEvent.samplerSetEpoch st1.epochs] else []))

/-- `Trainer._train_epoch` (lines 71-88) over an epoch the data loader serves
as `n` batches: process batches in order, returning immediately after the
batch whose interval checks ran if `finish_train` is set (lines 81-82); when
the batches are exhausted, perform the epoch-boundary action. -/
def train_epoch (cfg : TrainerCfg) (st : LoopState) : Nat → LoopState × List TrainEvent
  | 0 => epochBoundary cfg st
  | n + 1 =>
    let r := processBatch cfg st
    if r.1.finish_train then r
    else
      let r2 := train_epoch cfg r.1 n
      (r2.1, r.2 ++ r2.2)

/-- `Trainer.run` (lines 59-69): repeatedly `_train_epoch`, stopping once
`finish_train` holds.  `fuel` lists the batch count of each successive epoch;
an empty list means the observation window ends (the program itself loops
forever until `finish_train`). -/
def runLoop (cfg : TrainerCfg) (st : LoopState) : List Nat → LoopState × List TrainEvent
  | [] => (st, [])
  | n :: rest =>
    let r := train_epoch cfg st n
    if r.1.finish_train then r
    else
      let r2 := runLoop cfg r.1 rest
      (r2.1, r.2 ++ r2.2)

/-! ## Trace projections -/

/-- Step counters of the processed-batch events of a trace, in order. -/
def trainCounters (evs : List TrainEvent) : List Nat :=
  evs.filterMap fun e =>
    match e with
    | TrainEvent.trainStep s => some s
    | _ => none

/-- Step counters at which the log-interval action fired, in order. -/
def logCounters (evs : List TrainEvent) : List Nat :=
  evs.filterMap fun e =>
    match e with
    | TrainEvent.logAction s => some s
    | _ => none

/-- Step counters at which the save-interval action fired, in order. -/
def saveCounters (evs : List TrainEvent) : List Nat :=
  evs.filterMap fun e =>
    match e with
    | TrainEvent.saveAction s => some s
    | _ => none

/-- Step counters at which the eval-interval action fired, in order. -/
def evalCounters (evs : List TrainEvent) : List Nat :=
  evs.filterMap fun e =>
    match e with
    | TrainEvent.evalAction s => some s
    | _ => none

/-! ## Basic facts about the loop pieces -/

@[simp] lemma check_train_finish_steps (cfg : TrainerCfg) (st : LoopState) :
    (check_train_finish cfg st).steps = st.steps := by
  unfold check_train_finish; split <;> rfl

@[simp] lemma check_train_finish_epochs (cfg : TrainerCfg) (st : LoopState) :
    (check_train_finish cfg st).epochs = st.epochs := by
  unfold check_train_finish; split <;> rfl

lemma check_train_finish_finish (cfg : TrainerCfg) (st : LoopState) :
    (check_train_finish cfg st).finish_train =
      if cfg.train_max_steps ≤ st.steps then true else st.finish_train := by
  unfold check_train_finish; split <;> rfl

@[simp] lemma processBatch_steps (cfg : TrainerCfg) (st : LoopState) :
    (processBatch cfg st).1.steps = st.steps + 1 := by
  simp [processBatch, train_step]

@[simp] lemma processBatch_epochs (cfg : TrainerCfg) (st : LoopState) :
    (processBatch cfg st).1.epochs = st.epochs := by
  simp [processBatch, train_step]

lemma processBatch_finish (cfg : TrainerCfg) (st : LoopState) :
    (processBatch cfg st).1.finish_train =
      if cfg.train_max_steps ≤ st.steps + 1 then true else st.finish_train := by
  simp [processBatch, train_step, check_train_finish_finish]

/-- The events of one loop-body iteration, fully unfolded: the processed-batch
event first, then the three interval actions in the order log, save, eval,
each present iff its modulo test on the new counter value fires. -/
lemma processBatch_events (cfg : TrainerCfg) (st : LoopState) :
    (processBatch cfg st).2 =
      TrainEvent.trainStep (st.steps + 1) ::
        ((if (st.steps + 1) % cfg.log_interval_steps = 0 then
            [TrainEvent.logAction (st.steps + 1)] else []) ++
         (if (st.steps + 1) % cfg.save_interval_steps = 0 then
            [TrainEvent.saveAction (st.steps + 1)] else []) ++
         (if (st.steps + 1) % cfg.eval_interval_steps = 0 then
            [TrainEvent.evalAction (st.steps + 1)] else [])) := by
  simp [processBatch, train_step, check_log_interval, check_save_interval, check_eval_interval]

/-! ## Trace projection lemmas -/

@[simp] lemma trainCounters_append (a b : List TrainEvent) :
    trainCounters (a ++ b) = trainCounters a ++ trainCounters b :=
  List.filterMap_append ..

@[simp] lemma logCounters_append (a b : List TrainEvent) :
    logCounters (a ++ b) = logCounters a ++ logCounters b :=
  List.filterMap_append ..

@[simp] lemma saveCounters_append (a b : List TrainEvent) :
    saveCounters (a ++ b) = saveCounters a ++ saveCounters b :=
  List.filterMap_append ..

@[simp] lemma evalCounters_append (a b : List TrainEvent) :
    evalCounters (a ++ b) = evalCounters a ++ evalCounters b :=
  List.filterMap_append ..

lemma mem_trainCounters {s : Nat} {evs : List TrainEvent} :
    s ∈ trainCounters evs ↔ TrainEvent.trainStep s ∈ evs := by
  simp only [trainCounters, List.mem_filterMap]
  constructor
  · rintro ⟨e, he, hf⟩
    cases e <;> simp_all
  · intro h
    exact ⟨_, h, rfl⟩

lemma mem_logCounters {s : Nat} {evs : List TrainEvent} :
    s ∈ logCounters evs ↔ TrainEvent.logAction s ∈ evs := by
  simp only [logCounters, List.mem_filterMap]
  constructor
  · rintro ⟨e, he, hf⟩
    cases e <;> simp_all
  · intro h
    exact ⟨_, h, rfl⟩

lemma mem_saveCounters {s : Nat} {evs : List TrainEvent} :
    s ∈ saveCounters evs ↔ TrainEvent.saveAction s ∈ evs := by
  simp only [saveCounters, List.mem_filterMap]
  constructor
  · rintro ⟨e, he, hf⟩
    cases e <;> simp_all
  · intro h
    exact ⟨_, h, rfl⟩

lemma mem_evalCounters {s : Nat} {evs : List TrainEvent} :
    s ∈ evalCounters evs ↔ TrainEvent.evalAction s ∈ evs := by
  simp only [evalCounters, List.mem_filterMap]
  constructor
  · rintro ⟨e, he, hf⟩
    cases e <;> simp_all
  · intro h
    exact ⟨_, h, rfl⟩

@[simp] lemma trainCounters_processBatch (cfg : TrainerCfg) (st : LoopState) :
    trainCounters (processBatch cfg st).2 = [st.steps + 1] := by
  rw [processBatch_events]
  simp only [trainCounters, List.filterMap_cons, List.filterMap_append]
  split <;> split <;> split <;> simp [List.filterMap]

@[simp] lemma logCounters_processBatch (cfg : TrainerCfg) (st : LoopState) :
    logCounters (processBatch cfg st).2 =
      if (st.steps + 1) % cfg.log_interval_steps = 0 then [st.steps + 1] else [] := by
  rw [processBatch_events]
  simp only [logCounters, List.filterMap_cons, List.filterMap_append]
  split <;> split <;> split <;> simp [List.filterMap]

@[simp] lemma saveCounters_processBatch (cfg : TrainerCfg) (st : LoopState) :
    saveCounters (processBatch cfg st).2 =
      if (st.steps + 1) % cfg.save_interval_steps = 0 then [st.steps + 1] else [] := by
  rw [processBatch_events]
  simp only [saveCounters, List.filterMap_cons, List.filterMap_append]
  split <;> split <;> split <;> simp [List.filterMap]

@[simp] lemma evalCounters_processBatch (cfg : TrainerCfg) (st : LoopState) :
    evalCounters (processBatch cfg st).2 =
      if (st.steps + 1) % cfg.eval_interval_steps = 0 then [st.steps + 1] else [] := by
  rw [processBatch_events]
  simp only [evalCounters, List.filterMap_cons, List.filterMap_append]
  split <;> split <;> split <;> simp [List.filterMap]

@[simp] lemma trainCounters_epochBoundary (cfg : TrainerCfg) (st : LoopState) :
    trainCounters (epochBoundary cfg st).2 = [] := by
  unfold epochBoundary trainCounters
  split <;> rfl

@[simp] lemma logCounters_epochBoundary (cfg : TrainerCfg) (st : LoopState) :
    logCounters (epochBoundary cfg st).2 = [] := by
  unfold epochBoundary logCounters
  split <;> rfl

@[simp] lemma saveCounters_epochBoundary (cfg : TrainerCfg) (st : LoopState) :
    saveCounters (epochBoundary cfg st).2 = [] := by
  unfold epochBoundary saveCounters
  split <;> rfl

@[simp] lemma evalCounters_epochBoundary (cfg : TrainerCfg) (st : LoopState) :
    evalCounters (epochBoundary cfg st).2 = [] := by
  unfold epochBoundary evalCounters
  split <;> rfl

@[simp] lemma epochBoundary_steps (cfg : TrainerCfg) (st : LoopState) :
    (epochBoundary cfg st).1.steps = st.steps := rfl

@[simp] lemma epochBoundary_epochs (cfg : TrainerCfg) (st : LoopState) :
    (epochBoundary cfg st).1.epochs = st.epochs + 1 := rfl

@[simp] lemma epochBoundary_finish (cfg : TrainerCfg) (st : LoopState) :
    (epochBoundary cfg st).1.finish_train = st.finish_train := rfl

/-- Two adjacent blocks of consecutive counters glue into one. -/
lemma range'_glue (a b c : Nat) (hab : a ≤ b) (hbc : b ≤ c) :
    List.range' (a + 1) (b - a) ++ List.range' (b + 1) (c - b) =
      List.range' (a + 1) (c - a) := by
  have h1 : b + 1 = (a + 1) + 1 * (b - a) := by omega
  rw [h1, List.range'_append]
  congr 1
  omega

/-! ## The step counter along a run

The processed-batch events of any run carry exactly the consecutive counter
values from one past the initial counter up to the final counter: the counter
moves up by exactly one per processed batch, never skips and never decreases,
and the epoch-boundary action leaves it untouched. -/

lemma train_epoch_trace (cfg : TrainerCfg) (st : LoopState) (n : Nat) :
    st.steps ≤ (train_epoch cfg st n).1.steps ∧
    trainCounters (train_epoch cfg st n).2 =
      List.range' (st.steps + 1) ((train_epoch cfg st n).1.steps - st.steps) := by
  induction n generalizing st with
  | zero =>
    rw [train_epoch]
    simp
  | succ n ih =>
    rw [train_epoch]
    simp only []
    split
    · simp
    · obtain ⟨ih1, ih2⟩ := ih (processBatch cfg st).1
      dsimp only
      rw [processBatch_steps] at ih1
      refine ⟨by omega, ?_⟩
      rw [trainCounters_append, trainCounters_processBatch, ih2, processBatch_steps]
      have hone : [st.steps + 1] = List.range' (st.steps + 1) ((st.steps + 1) - st.steps) := by
        simp
      rw [hone]
      exact range'_glue st.steps (st.steps + 1)
        (train_epoch cfg (processBatch cfg st).1 n).1.steps (by omega) ih1

lemma runLoop_trace (cfg : TrainerCfg) (st : LoopState) (fuel : List Nat) :
    st.steps ≤ (runLoop cfg st fuel).1.steps ∧
    trainCounters (runLoop cfg st fuel).2 =
      List.range' (st.steps + 1) ((runLoop cfg st fuel).1.steps - st.steps) := by
  induction fuel generalizing st with
  | nil =>
    simp [runLoop, trainCounters]
  | cons n rest ih =>
    rw [runLoop]
    simp only []
    split
    · exact train_epoch_trace cfg st n
    · obtain ⟨h1, h2⟩ := train_epoch_trace cfg st n
      obtain ⟨ih1, ih2⟩ := ih (train_epoch cfg st n).1
      dsimp only
      refine ⟨le_trans h1 ih1, ?_⟩
      rw [trainCounters_append, h2, ih2]
      exact range'_glue st.steps (train_epoch cfg st n).1.steps
        (runLoop cfg (train_epoch cfg st n).1 rest).1.steps h1 ih1

/-! ## Interval actions as filters of the processed-batch trace -/

lemma train_epoch_interval_filters (cfg : TrainerCfg) (st : LoopState) (n : Nat) :
    logCounters (train_epoch cfg st n).2 =
      (trainCounters (train_epoch cfg st n).2).filter
        (fun s => s % cfg.log_interval_steps == 0) ∧
    saveCounters (train_epoch cfg st n).2 =
      (trainCounters (train_epoch cfg st n).2).filter
        (fun s => s % cfg.save_interval_steps == 0) ∧
    evalCounters (train_epoch cfg st n).2 =
      (trainCounters (train_epoch cfg st n).2).filter
        (fun s => s % cfg.eval_interval_steps == 0) := by
  induction n generalizing st with
  | zero =>
    simp [train_epoch]
  | succ n ih =>
    rw [train_epoch]
    simp only []
    split
    · refine ⟨?_, ?_, ?_⟩ <;>
      · simp only [trainCounters_processBatch, logCounters_processBatch,
          saveCounters_processBatch, evalCounters_processBatch]
        split <;> simp_all
    · obtain ⟨ih1, ih2, ih3⟩ := ih (processBatch cfg st).1
      refine ⟨?_, ?_, ?_⟩ <;>
      · simp only [trainCounters_append, logCounters_append, saveCounters_append,
          evalCounters_append, List.filter_append, ih1, ih2, ih3,
          trainCounters_processBatch, logCounters_processBatch,
          saveCounters_processBatch, evalCounters_processBatch]
        congr 1
        split <;> simp_all

lemma runLoop_interval_filters (cfg : TrainerCfg) (st : LoopState) (fuel : List Nat) :
    logCounters (runLoop cfg st fuel).2 =
      (trainCounters (runLoop cfg st fuel).2).filter
        (fun s => s % cfg.log_interval_steps == 0) ∧
    saveCounters (runLoop cfg st fuel).2 =
      (trainCounters (runLoop cfg st fuel).2).filter
        (fun s => s % cfg.save_interval_steps == 0) ∧
    evalCounters (runLoop cfg st fuel).2 =
      (trainCounters (runLoop cfg st fuel).2).filter
        (fun s => s % cfg.eval_interval_steps == 0) := by
  induction fuel generalizing st with
  | nil =>
    simp [runLoop, trainCounters, logCounters, saveCounters, evalCounters]
  | cons n rest ih =>
    rw [runLoop]
    simp only []
    split
    · exact train_epoch_interval_filters cfg st n
    · obtain ⟨e1, e2, e3⟩ := train_epoch_interval_filters cfg st n
      obtain ⟨ih1, ih2, ih3⟩ := ih (train_epoch cfg st n).1
      refine ⟨?_, ?_, ?_⟩ <;>
        simp only [trainCounters_append, logCounters_append, saveCounters_append,
          evalCounters_append, List.filter_append, e1, e2, e3, ih1, ih2, ih3]

/-! ## Termination invariant

Provided the loop is entered unfinished and strictly below the maximum, the
counter never exceeds `train_max_steps` and `finish_train` holds exactly when
it has reached `train_max_steps`. -/

lemma train_epoch_finish_inv (cfg : TrainerCfg) (st : LoopState) (n : Nat)
    (h0 : st.finish_train = false) (h1 : st.steps < cfg.train_max_steps) :
    (train_epoch cfg st n).1.steps ≤ cfg.train_max_steps ∧
    ((train_epoch cfg st n).1.finish_train = true ↔
      (train_epoch cfg st n).1.steps = cfg.train_max_steps) := by
  induction n generalizing st with
  | zero =>
    rw [train_epoch]
    refine ⟨by simp; omega, ?_⟩
    simp [h0]
    omega
  | succ n ih =>
    rw [train_epoch]
    simp only []
    have hpb := processBatch_finish cfg st
    rw [h0] at hpb
    split
    · rename_i hfin
      have hN : cfg.train_max_steps = st.steps + 1 := by
        rw [hpb] at hfin
        split at hfin
        · omega
        · simp at hfin
      refine ⟨by rw [processBatch_steps]; omega, ?_⟩
      rw [processBatch_steps]
      simp [hfin, hN]
    · rename_i hfin
      have hfin' : (processBatch cfg st).1.finish_train = false := by
        revert hfin
        cases (processBatch cfg st).1.finish_train <;> simp
      have hlt : (processBatch cfg st).1.steps < cfg.train_max_steps := by
        rw [processBatch_steps]
        rw [hpb] at hfin'
        split at hfin'
        · simp at hfin'
        · omega
      dsimp only
      exact ih (processBatch cfg st).1 hfin' hlt

lemma runLoop_finish_inv (cfg : TrainerCfg) (st : LoopState) (fuel : List Nat)
    (h0 : st.finish_train = false) (h1 : st.steps < cfg.train_max_steps) :
    (runLoop cfg st fuel).1.steps ≤ cfg.train_max_steps ∧
    ((runLoop cfg st fuel).1.finish_train = true ↔
      (runLoop cfg st fuel).1.steps = cfg.train_max_steps) := by
  induction fuel generalizing st with
  | nil =>
    simp [runLoop, h0]
    omega
  | cons n rest ih =>
    rw [runLoop]
    simp only []
    split
    · exact train_epoch_finish_inv cfg st n h0 h1
    · rename_i hfin
      obtain ⟨e1, e2⟩ := train_epoch_finish_inv cfg st n h0 h1
      have hf : (train_epoch cfg st n).1.finish_train = false := by
        revert hfin
        cases (train_epoch cfg st n).1.finish_train <;> simp
      have hlt : (train_epoch cfg st n).1.steps < cfg.train_max_steps := by
        rcases lt_or_eq_of_le e1 with h | h
        · exact h
        · exact absurd (e2.mpr h) (by simp [hf])
      dsimp only
      exact ih (train_epoch cfg st n).1 hf hlt

/-! ## Claim C1 -/

/-- C1: for every step count `s` reached during training, the loop performs
the save action iff `s % save_interval_steps == 0`, the log action iff
`s % log_interval_steps == 0` and the eval action iff
`s % eval_interval_steps == 0`, each check independent of the others, and
when several fire on the same step they execute in the order log, save,
eval (last conjunct: the event list of one loop-body iteration). -/
theorem claim_C1_interval_actions (cfg : TrainerCfg) (st : LoopState) (fuel : List Nat)
    (_hL : 0 < cfg.log_interval_steps) (_hS : 0 < cfg.save_interval_steps)
    (_hE : 0 < cfg.eval_interval_steps) :
    (∀ s, TrainEvent.logAction s ∈ (runLoop cfg st fuel).2 ↔
        (TrainEvent.trainStep s ∈ (runLoop cfg st fuel).2 ∧
          s % cfg.log_interval_steps = 0)) ∧
    (∀ s, TrainEvent.saveAction s ∈ (runLoop cfg st fuel).2 ↔
        (TrainEvent.trainStep s ∈ (runLoop cfg st fuel).2 ∧
          s % cfg.save_interval_steps = 0)) ∧
    (∀ s, TrainEvent.evalAction s ∈ (runLoop cfg st fuel).2 ↔
        (TrainEvent.trainStep s ∈ (runLoop cfg st fuel).2 ∧
          s % cfg.eval_interval_steps = 0)) ∧
    (∀ st0 : LoopState, (processBatch cfg st0).2 =
      TrainEvent.trainStep (st0.steps + 1) ::
        ((if (st0.steps + 1) % cfg.log_interval_steps = 0 then
            [TrainEvent.logAction (st0.steps + 1)] else []) ++
         (if (st0.steps + 1) % cfg.save_interval_steps = 0 then
            [TrainEvent.saveAction (st0.steps + 1)] else []) ++
         (if (st0.steps + 1) % cfg.eval_interval_steps = 0 then
            [TrainEvent.evalAction (st0.steps + 1)] else []))) := by
  obtain ⟨f1, f2, f3⟩ := runLoop_interval_filters cfg st fuel
  refine ⟨?_, ?_, ?_, fun st0 => processBatch_events cfg st0⟩
  · intro s
    rw [← mem_logCounters, f1, List.mem_filter, mem_trainCounters]
    simp
  · intro s
    rw [← mem_saveCounters, f2, List.mem_filter, mem_trainCounters]
    simp
  · intro s
    rw [← mem_evalCounters, f3, List.mem_filter, mem_trainCounters]
    simp

/-- Witness for C1 at a concrete run: log every 2 steps, save every 3, eval
every 5, at most 10 steps, one epoch of 4 batches. -/
theorem claim_C1_witness :
    TrainEvent.saveAction 3 ∈
        (runLoop ⟨2, 3, 5, 10, false⟩ ⟨0, 0, false⟩ [4]).2 ↔
      (TrainEvent.trainStep 3 ∈ (runLoop ⟨2, 3, 5, 10, false⟩ ⟨0, 0, false⟩ [4]).2 ∧
        3 % (⟨2, 3, 5, 10, false⟩ : TrainerCfg).save_interval_steps = 0) :=
  ((claim_C1_interval_actions ⟨2, 3, 5, 10, false⟩ ⟨0, 0, false⟩ [4]
    (by decide) (by decide) (by decide)).2.1) 3

/-! ## Claim C2 -/

/-- C2 counterexample: the loop checks termination only after a processed
batch, so an execution entered with the counter already at
`train_max_steps = 200` (the state `load_checkpoint` produces when resuming
from `checkpoint-200steps.pkl`, a file the run with `save_interval_steps =
100` saves; `finish_train` starts `False` in `__init__` and is not
persisted) still processes one more batch, and that training step carries
counter 201 > 200 — refuting the claim that no training step ever runs with
step counter above `train_max_steps`. -/
theorem claim_C2_counterexample :
    TrainEvent.trainStep 201 ∈
        (runLoop ⟨100, 100, 100, 200, false⟩ ⟨200, 3, false⟩ [1]).2 ∧
      (⟨100, 100, 100, 200, false⟩ : TrainerCfg).train_max_steps = 200 ∧ 200 < 201 := by
  decide

/-- C2 amended: provided the loop is entered unfinished and with the counter
strictly below `train_max_steps = N` (true of a fresh run and of any resume
from a checkpoint of a run with the same maximum that has not already
finished), the counter never exceeds `N`, `finish_train` is set exactly when
the counter reaches `N` (so the loop aborts the current epoch there and
performs no further training steps), and the step that reaches `N` is the
last processed-batch event of the trace. -/
theorem claim_C2_termination (cfg : TrainerCfg) (st : LoopState) (fuel : List Nat)
    (h0 : st.finish_train = false) (h1 : st.steps < cfg.train_max_steps) :
    (runLoop cfg st fuel).1.steps ≤ cfg.train_max_steps ∧
    ((runLoop cfg st fuel).1.finish_train = true ↔
      (runLoop cfg st fuel).1.steps = cfg.train_max_steps) ∧
    (∀ s, TrainEvent.trainStep s ∈ (runLoop cfg st fuel).2 →
      s ≤ cfg.train_max_steps) ∧
    (TrainEvent.trainStep cfg.train_max_steps ∈ (runLoop cfg st fuel).2 →
      (trainCounters (runLoop cfg st fuel).2).getLast? =
        some cfg.train_max_steps) := by
  obtain ⟨hinv1, hinv2⟩ := runLoop_finish_inv cfg st fuel h0 h1
  obtain ⟨htr1, htr2⟩ := runLoop_trace cfg st fuel
  refine ⟨hinv1, hinv2, ?_, ?_⟩
  · intro s hs
    rw [← mem_trainCounters, htr2, List.mem_range'_1] at hs
    omega
  · intro hN
    rw [← mem_trainCounters, htr2, List.mem_range'_1] at hN
    have hfinal : (runLoop cfg st fuel).1.steps = cfg.train_max_steps := by omega
    rw [htr2, hfinal]
    have hk : cfg.train_max_steps - st.steps =
        (cfg.train_max_steps - st.steps - 1) + 1 := by omega
    rw [hk, List.range'_concat, List.getLast?_concat]
    congr 2
    omega

/-- Witness for the amended C2 on a concrete run: maximum 3, one epoch of 5
batches, entered at step 0. -/
theorem claim_C2_witness :
    (runLoop ⟨1, 1, 1, 3, false⟩ ⟨0, 0, false⟩ [5]).1.steps ≤ (3 : Nat) :=
  (claim_C2_termination ⟨1, 1, 1, 3, false⟩ ⟨0, 0, false⟩ [5] rfl (by decide)).1

/-! ## Claim C3 -/

/-- C3: across every execution of the loop, the processed-batch events carry
exactly the consecutive counter values from one past the initial counter up
to the final counter — the counter increases by exactly 1 per processed
batch, never skips a value, never decreases — and the epoch-boundary action
leaves the counter unchanged. -/
theorem claim_C3_step_counter (cfg : TrainerCfg) (st : LoopState) (fuel : List Nat) :
    trainCounters (runLoop cfg st fuel).2 =
      List.range' (st.steps + 1) ((runLoop cfg st fuel).1.steps - st.steps) ∧
    st.steps ≤ (runLoop cfg st fuel).1.steps ∧
    (runLoop cfg st fuel).1.steps =
      st.steps + (trainCounters (runLoop cfg st fuel).2).length ∧
    (epochBoundary cfg st).1.steps = st.steps := by
  obtain ⟨h1, h2⟩ := runLoop_trace cfg st fuel
  refine ⟨h2, h1, ?_, rfl⟩
  rw [h2, List.length_range']
  omega

/-! ## Claim C7 -/

/-- C7: in a run configured with `save_interval_steps = 100` and
`train_max_steps = 250` that starts at step 0 and reaches the maximum (the
other two intervals and the per-epoch batch counts are arbitrary), the save
action fires exactly at steps 100 and 200 — once each, in that order — and
in particular never at step 250. -/
theorem claim_C7_save_schedule (L E : Nat) (fuel : List Nat)
    (h : (runLoop ⟨L, 100, E, 250, false⟩ ⟨0, 0, false⟩ fuel).1.steps = 250) :
    saveCounters (runLoop ⟨L, 100, E, 250, false⟩ ⟨0, 0, false⟩ fuel).2 =
      [100, 200] ∧
    (∀ s, TrainEvent.saveAction s ∈
        (runLoop ⟨L, 100, E, 250, false⟩ ⟨0, 0, false⟩ fuel).2 ↔
      (s = 100 ∨ s = 200)) ∧
    TrainEvent.saveAction 250 ∉
      (runLoop ⟨L, 100, E, 250, false⟩ ⟨0, 0, false⟩ fuel).2 := by
  obtain ⟨-, f2, -⟩ := runLoop_interval_filters ⟨L, 100, E, 250, false⟩ ⟨0, 0, false⟩ fuel
  obtain ⟨-, htr⟩ := runLoop_trace ⟨L, 100, E, 250, false⟩ ⟨0, 0, false⟩ fuel
  rw [h] at htr
  have hsave : saveCounters (runLoop ⟨L, 100, E, 250, false⟩ ⟨0, 0, false⟩ fuel).2 =
      [100, 200] := by
    rw [f2, htr]
    show List.filter (fun s => s % 100 == 0) (List.range' (0 + 1) (250 - 0)) = [100, 200]
    decide
  refine ⟨hsave, ?_, ?_⟩
  · intro s
    rw [← mem_saveCounters, hsave]
    simp
  · rw [← mem_saveCounters, hsave]
    simp

/-- Witness for C7: one epoch of 300 batches reaches the maximum of 250
mid-epoch; the saves are exactly the ones at 100 and 200. -/
theorem claim_C7_witness :
    saveCounters (runLoop ⟨1000, 100, 1000, 250, false⟩ ⟨0, 0, false⟩ [300]).2 =
      [100, 200] :=
  (claim_C7_save_schedule 1000 1000 [300] (by decide)).1

/-! ## The evaluation pass (`_eval_epoch` / `_eval_step`, lines 108-154)

Scalar tensor values are abstracted as `ℚ`.  The accumulators
`total_eval_loss` and `total_eval_score` are `defaultdict(float)` objects:
ordered key-value maps where adding to an absent key creates it at 0. -/

/-- A Python runtime error raised inside the trainer. -/
inductive PyError where
  /-- `TypeError`: the object being called is not callable. -/
  | notCallable
  /-- `KeyError` on a dict subscript. -/
  | keyError (k : String)
deriving DecidableEq, Repr

/-- Tags for the entries of the loss registry built in `main` lines 304-307
(the torch loss modules themselves are external). -/
inductive LossTag where
  | MSE
  | BCE
deriving DecidableEq, Repr

/-- The registry dict built in `main` lines 304-307 and passed to `Trainer`
as `criterion`: keys `MSE` and `BCE` only. -/
def mainCriterion : List (String × LossTag) := [("MSE", LossTag.MSE), ("BCE", LossTag.BCE)]

/-- Python dict subscript `d[k]` on a string-keyed dict, as an option. -/
def dictGet {α : Type} (d : List (String × α)) (k : String) : Option α :=
  match d with
  | [] => none
  | (k1, v) :: rest => if k1 = k then some v else dictGet rest k

/-- `Trainer.__init__` line 42: `self.loss_fn = criterion[config["loss_fn"]]`;
a missing key raises `KeyError`. -/
def trainer_init_loss_fn (criterion : List (String × LossTag)) (key : String) :
    Except PyError LossTag :=
  match dictGet criterion key with
  | none => Except.error (PyError.keyError key)
  | some t => Except.ok t

/-- `defaultdict(float)` accumulation `d[k] += v`: add to the entry if the key
exists, otherwise create it at `0` and add (insertion order preserved, as in
a Python dict). -/
def addTo (d : List (String × ℚ)) (k : String) (v : ℚ) : List (String × ℚ) :=
  match d with
  | [] => [(k, v)]
  | (k1, v1) :: rest => if k1 = k then (k1, v1 + v) :: rest else (k1, v1) :: addTo rest k v

/-- One batch of the eval data loader: the collated mel tensor and label
tensor, abstracted to scalars. -/
structure Batch where
  mel : ℚ
  label : ℚ

/-- The trainer state touched by the evaluation pass.  `modelF` (the model
forward), `loss_fn` (the loss module selected at init) and `sigmoidF`
(`F.sigmoid`) are external numeric collaborators and appear as function
fields; `criterion` is the registry dict object stored by `__init__`;
`cfg_loss_fn` is `self.config["loss_fn"]`; `writer` records the scalars
emitted to the tensorboard sink as (tag, value, step) triples in emission
order; `modelTraining` is the train/eval mode flag of the model. -/
structure EvTrainer where
  steps : Nat
  cfg_loss_fn : String
  loss_fn : ℚ → ℚ → ℚ
  modelF : ℚ → ℚ
  sigmoidF : ℚ → ℚ
  criterion : List (String × LossTag)
  total_eval_loss : List (String × ℚ)
  total_eval_score : List (String × ℚ)
  modelTraining : Bool
  writer : List (String × ℚ × Nat)

/-- The call `self.criterion(y, y_)` in `_eval_step` line 154:
`self.criterion` is the registry dict built in `main` (`torch.nn` loss
modules keyed by name), and a Python dict object is not callable, so the
call raises `TypeError` for every argument pair. -/
def callCriterion (_registry : List (String × LossTag)) (_y _y2 : ℚ) :
    Except PyError ℚ :=
  Except.error PyError.notCallable

/-- `Trainer._eval_step` (lines 139-154): forward pass, loss, accumulate the
loss under key `eval/onset_loss`; then, when the configured loss name is
`BCEWithLogits`, map the outputs through the sigmoid; finally compute the
score by calling `self.criterion` and accumulate it — note the source adds
the score to `total_eval_loss` (line 154), not to `total_eval_score`. -/
def eval_step (tr : EvTrainer) (b : Batch) : Except PyError EvTrainer :=
  let y := b.label
  let y1 := tr.modelF b.mel
  let loss := tr.loss_fn y1 y
  let tr1 : EvTrainer :=
    { tr with total_eval_loss := addTo tr.total_eval_loss "eval/onset_loss" loss }
  let y2 := if tr1.cfg_loss_fn = "BCEWithLogits" then tr1.sigmoidF y1 else y1
  match callCriterion tr1.criterion y y2 with
  | Except.error e => Except.error e
  | Except.ok score =>
    Except.ok { tr1 with total_eval_loss := addTo tr1.total_eval_loss "eval/score" score }

/-- The `for` loop of `_eval_epoch` (lines 113-114): run `_eval_step` over
the eval batches in order, propagating a raised error. -/
def eval_steps (tr : EvTrainer) : List Batch → Except PyError EvTrainer
  | [] => Except.ok tr
  | b :: bs =>
    match eval_step tr b with
    | Except.error e => Except.error e
    | Except.ok tr1 => eval_steps tr1 bs

/-- `Trainer._write_to_tensorboard` (lines 179-181): emit every entry of the
mapping to the scalar sink, tagged with the current step. -/
def write_to_tensorboard (tr : EvTrainer) (item : List (String × ℚ)) : EvTrainer :=
  { tr with writer := tr.writer ++ item.map (fun kv => (kv.1, kv.2, tr.steps)) }

/-- `Trainer._eval_epoch` (lines 108-137): switch the model to eval mode,
run the eval loader (`batch_idx` starts at 1 and, via `enumerate(..., 1)`,
ends at the number of batches when there is at least one), then divide every
entry of both accumulators by `batch_idx`, emit the loss mapping and then the
score mapping to the sink, reset both accumulators to empty, and restore
train mode. -/
def eval_epoch (tr : EvTrainer) (batches : List Batch) : Except PyError EvTrainer :=
  let tr0 : EvTrainer := { tr with modelTraining := false }
  match eval_steps tr0 batches with
  | Except.error e => Except.error e
  | Except.ok tr1 =>
    let batch_idx : Nat := if batches.length = 0 then 1 else batches.length
    let tr2 : EvTrainer :=
      { tr1 with total_eval_loss :=
          tr1.total_eval_loss.map (fun kv => (kv.1, kv.2 / (batch_idx : ℚ))) }
    let tr3 : EvTrainer :=
      { tr2 with total_eval_score :=
          tr2.total_eval_score.map (fun kv => (kv.1, kv.2 / (batch_idx : ℚ))) }
    let tr4 := write_to_tensorboard tr3 tr3.total_eval_loss
    let tr5 := write_to_tensorboard tr4 tr3.total_eval_score
    let tr6 : EvTrainer := { tr5 with total_eval_loss := [], total_eval_score := [] }
    Except.ok { tr6 with modelTraining := true }

/-! ## Claim C5 -/

/-- C5 (code bug): an evaluation pass over at least one batch never reaches
its end-of-pass averaging, emission and reset, because `_eval_step` raises
`TypeError` on every batch: line 154 calls `self.criterion(y, y_)`, and
`self.criterion` is the (non-callable) registry dict built in `main`.  The
end-of-pass behaviour the claim describes is therefore unreachable whenever
any batch is processed. -/
theorem claim_C5_eval_pass_crashes (tr : EvTrainer) (b : Batch) (bs : List Batch) :
    eval_epoch tr (b :: bs) = Except.error PyError.notCallable := rfl

/-! ## Claim C6 -/

/-- C6 (code bug): the secondary score metric is never computed.  Every
evaluation step raises `TypeError` at the score computation, because it
calls the registry dict; and the `BCEWithLogits` configuration the sigmoid
branch tests for cannot even be constructed, because the registry built in
`main` has only the keys `MSE` and `BCE`, so `Trainer.__init__` raises
`KeyError` for `config["loss_fn"] = "BCEWithLogits"` at line 42. -/
theorem claim_C6_score_never_computed :
    (∀ (tr : EvTrainer) (b : Batch),
      eval_step tr b = Except.error PyError.notCallable) ∧
    trainer_init_loss_fn mainCriterion "BCEWithLogits" =
      Except.error (PyError.keyError "BCEWithLogits") :=
  ⟨fun _ _ => rfl, rfl⟩

/-! ## Claim C10 -/

/-- Dividing every value of an accumulator by one and then emitting is the
same as emitting the accumulated sums unchanged. -/
lemma map_emit_div_one (l : List (String × ℚ)) (s : Nat) :
    (l.map (fun kv => (kv.1, kv.2 / ((1 : Nat) : ℚ)))).map
        (fun kv => (kv.1, kv.2, s)) =
      l.map (fun kv => (kv.1, kv.2, s)) := by
  induction l with
  | nil => rfl
  | cons kv rest ih => simp [ih]

/-- C10: on an evaluation pass that sees zero batches, `_eval_epoch` still
completes: `batch_idx` keeps its initial value 1, so the divisor defaults to
1 and the emitted eval metrics equal the accumulated sums (loss mapping
first, then score mapping), both accumulators are reset to empty, and the
model is returned to training mode; the step counter is untouched. -/
theorem claim_C10_empty_eval (tr : EvTrainer) :
    eval_epoch tr [] = Except.ok
      { tr with
        total_eval_loss := [],
        total_eval_score := [],
        modelTraining := true,
        writer := tr.writer
          ++ tr.total_eval_loss.map (fun kv => (kv.1, kv.2, tr.steps))
          ++ tr.total_eval_score.map (fun kv => (kv.1, kv.2, tr.steps)) } := by
  simp only [eval_epoch, eval_steps, write_to_tensorboard, List.length_nil]
  norm_num [map_emit_div_one]

/-! ## The checkpoint store (`save_checkpoint` / `load_checkpoint`, lines
183-207) and the export routine (`save_model.py` lines 13-33)

Model parameters are a named dictionary of tensors; a tensor is abstracted
to a shape token and a content token, so that `load_state_dict` can fail on
an architecture mismatch exactly when the shapes disagree. -/

/-- An abstracted tensor: its shape and its content. -/
structure Tensor where
  shape : Nat
  data : Int
deriving DecidableEq, Repr

/-- A model parameter dictionary (`state_dict`). -/
abbrev ParamDict := List (String × Tensor)

/-- The shape signature of a parameter dictionary: names with shapes, the
part `load_state_dict` validates. -/
def sdSig (sd : ParamDict) : List (String × Nat) := sd.map (fun kv => (kv.1, kv.2.shape))

/-- An error raised on the checkpoint load / export path.  These are the
failures the spec groups under its `CheckpointError` class: a missing
checkpoint file (`FileNotFoundError` from `torch.load`), a bundle lacking an
expected key (`KeyError` on the subscript), or a parameter shape mismatch
(`RuntimeError` from `load_state_dict`). -/
inductive CkError where
  | fileNotFound
  | keyError (k : String)
  | sizeMismatch
deriving DecidableEq, Repr

/-- `torch` `load_state_dict` in strict mode: replaces the parameters when
every name and shape matches the current model, otherwise raises. -/
def load_state_dict (current incoming : ParamDict) : Except CkError ParamDict :=
  if sdSig incoming = sdSig current then Except.ok incoming
  else Except.error CkError.sizeMismatch

/-- The serialized bundle written by `save_checkpoint`, as read back by
`torch.load`: a dict that may or may not contain each expected key. -/
structure RawBundle where
  model : Option ParamDict
  optimizer : Option Nat
  scheduler : Option Nat
  steps : Option Nat
  epochs : Option Nat
deriving DecidableEq, Repr

/-- The bundle has the full expected schema
`{model, optimizer, scheduler, steps, epochs}`. -/
def schemaOk (sd : RawBundle) : Bool :=
  sd.model.isSome && sd.optimizer.isSome && sd.scheduler.isSome &&
    sd.steps.isSome && sd.epochs.isSome

/-- The trainer state the checkpoint store reads and writes: the counters,
the model parameters, and the (opaque) optimizer and scheduler
state dicts. -/
structure CkTrainer where
  steps : Nat
  epochs : Nat
  modelParams : ParamDict
  optimState : Nat
  schedState : Nat
  distributed : Bool
deriving DecidableEq, Repr

/-- `Trainer.save_checkpoint` (lines 183-195): bundle the optimizer state,
scheduler state, steps and epochs, and the model parameters — in distributed
mode `self.model.module.state_dict()`, the unwrapped model, otherwise
`self.model.state_dict()`; the wrapper delegates to the same underlying
parameter dictionary, so both branches yield `modelParams`. -/
def save_checkpoint (t : CkTrainer) : RawBundle :=
  { optimizer := some t.optimState
    scheduler := some t.schedState
    steps := some t.steps
    epochs := some t.epochs
    model := some (if t.distributed then t.modelParams else t.modelParams) }

/-- `Trainer.load_checkpoint` (lines 197-207): read the bundle (absent file:
`FileNotFoundError`), load `state_dict["model"]` into the model
unconditionally, and — only when `load_only_params` is false — restore
`steps`, `epochs`, the optimizer state and the scheduler state, in that
order; each subscript on a missing key raises `KeyError`. -/
def load_checkpoint (store : String → Option RawBundle) (path : String)
    (t : CkTrainer) (load_only_params : Bool) : Except CkError CkTrainer :=
  match store path with
  | none => Except.error CkError.fileNotFound
  | some sd =>
    match sd.model with
    | none => Except.error (CkError.keyError "model")
    | some m =>
      match load_state_dict t.modelParams m with
      | Except.error e => Except.error e
      | Except.ok p =>
        let t1 : CkTrainer := { t with modelParams := p }
        if load_only_params then Except.ok t1
        else
          match sd.steps with
          | none => Except.error (CkError.keyError "steps")
          | some s =>
            match sd.epochs with
            | none => Except.error (CkError.keyError "epochs")
            | some e =>
              match sd.optimizer with
              | none => Except.error (CkError.keyError "optimizer")
              | some o =>
                match sd.scheduler with
                | none => Except.error (CkError.keyError "scheduler")
                | some sc =>
                  Except.ok { t1 with
                    steps := s
                    epochs := e
                    optimState := o
                    schedState := sc }

/-- Outcome of `save_model` (`save_model.py`): the result of the run and
whether the export artifact file was written (the `package.PackageExporter`
block at line 29 is the only point that creates the artifact). -/
structure ExportResult where
  outcome : Except CkError Unit
  wroteArtifact : Bool
deriving Repr

/-- `save_model` (`save_model.py` lines 13-33): load the configuration
(path bookkeeping omitted), construct a fresh `MoodRecog` model on the CPU —
its parameter dictionary `fresh` is determined by `config["model"]` — read
the checkpoint with `torch.load`, load `state_dict["model"]` into the fresh
model (raising on an architecture mismatch), and only after that succeeds
open the package exporter and write the self-contained artifact. -/
def save_model (fresh : ParamDict) (store : String → Option RawBundle)
    (ckpt : String) : ExportResult :=
  match store ckpt with
  | none => { outcome := Except.error CkError.fileNotFound, wroteArtifact := false }
  | some sd =>
    match sd.model with
    | none => { outcome := Except.error (CkError.keyError "model"), wroteArtifact := false }
    | some m =>
      match load_state_dict fresh m with
      | Except.error e => { outcome := Except.error e, wroteArtifact := false }
      | Except.ok _ => { outcome := Except.ok (), wroteArtifact := true }

/-! ## Claim C4 -/

/-- C4: loading the checkpoint saved from trainer state `t` into a caller
whose model has the same architecture restores, with `params_only = false`,
exactly the saved `(steps, epochs)` and optimizer/scheduler state (and the
saved parameters); with `params_only = true`, only the parameters transfer
and the caller keeps its own steps, epochs, optimizer state and scheduler
state. -/
theorem claim_C4_checkpoint_roundtrip (t caller : CkTrainer)
    (h : sdSig caller.modelParams = sdSig t.modelParams) :
    load_checkpoint (fun _ => some (save_checkpoint t)) "ckpt" caller false =
      Except.ok { caller with
        modelParams := t.modelParams
        steps := t.steps
        epochs := t.epochs
        optimState := t.optimState
        schedState := t.schedState } ∧
    load_checkpoint (fun _ => some (save_checkpoint t)) "ckpt" caller true =
      Except.ok { caller with modelParams := t.modelParams } := by
  have hm : (if t.distributed then t.modelParams else t.modelParams) = t.modelParams := by
    split <;> rfl
  constructor <;> simp [load_checkpoint, save_checkpoint, load_state_dict, hm, h]

/-- A saved trainer state used to exercise the checkpoint roundtrip. -/
def ckSaved : CkTrainer :=
  { steps := 120, epochs := 4, modelParams := [("w", ⟨3, 9⟩)],
    optimState := 77, schedState := 8, distributed := false }

/-- A resuming trainer state with the same model architecture but different
counters and optimizer/scheduler state. -/
def ckCaller : CkTrainer :=
  { steps := 0, epochs := 0, modelParams := [("w", ⟨3, 0⟩)],
    optimState := 1, schedState := 2, distributed := false }

/-- Witness for C4 at concrete states: the `params_only = true` load keeps
the caller counters. -/
theorem claim_C4_witness :
    load_checkpoint (fun _ => some (save_checkpoint ckSaved)) "ckpt" ckCaller true =
      Except.ok { ckCaller with modelParams := ckSaved.modelParams } :=
  (claim_C4_checkpoint_roundtrip ckSaved ckCaller rfl).2

/-! ## Claim C8 -/

/-- A checkpoint file whose bundle holds only the `model` key — its structure
does not match the expected schema `{model, optimizer, scheduler, steps,
epochs}`. -/
def bundleOnlyModel : RawBundle :=
  { model := some [("w", ⟨3, 5⟩)], optimizer := none, scheduler := none,
    steps := none, epochs := none }

/-- C8 counterexample: a load request with `params_only = true` on a file
whose bundle lacks `optimizer`, `scheduler`, `steps` and `epochs` — so its
structure does not match the expected bundle schema — succeeds instead of
failing, because `load_checkpoint` only subscripts the keys it needs. -/
theorem claim_C8_counterexample :
    schemaOk bundleOnlyModel = false ∧
    load_checkpoint (fun _ => some bundleOnlyModel) "ckpt" ckCaller true =
      Except.ok { ckCaller with modelParams := [("w", ⟨3, 5⟩)] } :=
  ⟨rfl, rfl⟩

/-- C8 amended: a load request fails — always with one of the load-path
errors the spec groups under `CheckpointError` (missing file, missing key,
parameter shape mismatch) — iff the file is absent, or the bundle lacks the
`model` key, or the stored parameters mismatch the model architecture, or
`params_only` is false and any of `steps`, `epochs`, `optimizer`,
`scheduler` is missing; in particular a `params_only = true` load succeeds
even when every non-model key is absent. -/
theorem claim_C8_load_failure_conditions (store : String → Option RawBundle)
    (path : String) (t : CkTrainer) (po : Bool) :
    (∃ e, load_checkpoint store path t po = Except.error e) ↔
      (store path = none ∨
        ∃ sd, store path = some sd ∧
          (sd.model = none ∨
            (∃ m, sd.model = some m ∧ sdSig m ≠ sdSig t.modelParams) ∨
            (po = false ∧
              (sd.steps = none ∨ sd.epochs = none ∨
               sd.optimizer = none ∨ sd.scheduler = none)))) := by
  cases hs : store path with
  | none => simp [load_checkpoint, hs]
  | some sd =>
    cases hm : sd.model with
    | none => simp [load_checkpoint, hs, hm]
    | some m =>
      by_cases hsig : sdSig m = sdSig t.modelParams
      · cases po with
        | true => simp [load_checkpoint, hs, hm, load_state_dict, hsig]
        | false =>
          cases hst : sd.steps with
          | none => simp [load_checkpoint, hs, hm, load_state_dict, hsig, hst]
          | some s1 =>
            cases hep : sd.epochs with
            | none => simp [load_checkpoint, hs, hm, load_state_dict, hsig, hst, hep]
            | some e1 =>
              cases hop : sd.optimizer with
              | none =>
                simp [load_checkpoint, hs, hm, load_state_dict, hsig, hst, hep, hop]
              | some o1 =>
                cases hsc : sd.scheduler with
                | none =>
                  simp [load_checkpoint, hs, hm, load_state_dict, hsig, hst, hep,
                    hop, hsc]
                | some c1 =>
                  simp [load_checkpoint, hs, hm, load_state_dict, hsig, hst, hep,
                    hop, hsc]
      · simp [load_checkpoint, hs, hm, load_state_dict, hsig]

/-! ## Claim C9 -/

/-- C9: exporting from a checkpoint whose stored parameter shapes do not
match the model freshly constructed from the configuration fails with the
shape-mismatch load error (the spec class `CheckpointError`), and no export
artifact file is written. -/
theorem claim_C9_export_shape_mismatch (fresh : ParamDict) (sd : RawBundle)
    (m : ParamDict) (ckpt : String)
    (hm : sd.model = some m) (hsig : sdSig m ≠ sdSig fresh) :
    save_model fresh (fun _ => some sd) ckpt =
      { outcome := Except.error CkError.sizeMismatch, wroteArtifact := false } := by
  simp [save_model, hm, load_state_dict, hsig]

/-- Witness for C9: a fresh model with one weight of shape 2 against a
checkpoint storing that weight with shape 3. -/
theorem claim_C9_witness :
    save_model [("w", ⟨2, 0⟩)] (fun _ => some bundleOnlyModel) "ckpt" =
      { outcome := Except.error CkError.sizeMismatch, wroteArtifact := false } :=
  claim_C9_export_shape_mismatch [("w", ⟨2, 0⟩)] bundleOnlyModel [("w", ⟨3, 5⟩)]
    "ckpt" rfl (by decide)

end MoodClf
